import Mathlib

/-!
Verification of the scheduling and broadcast-delivery engine of the
SEOMarketingTGbot repository (`bot/db.py`, `bot/services/posts.py`,
`bot/scheduler.py`) against its natural-language specification.

The SQLite tables are embedded as Lean lists of row structures, kept in the
order the relevant SELECT statements return them (for `subscribers`, the
`ORDER BY joined_at DESC` order).  Python `Optional` values become `Option`,
and Python truthiness of optional strings / optional ints is modelled
explicitly.  The Telegram delivery calls of `send_post_to_chat` are abstracted
by an outcome function `Nat → SendOutcome` standing for the Delivery Gateway:
`delivered` for a successful send, `forbidden` for `TelegramForbiddenError`
(recipient blocked the bot) and `transientError` for any other exception.
Loops that page through the subscriber table are written with an explicit
fuel argument (the wrapper supplies `subs.length + 1`, which always exceeds
the number of pages) so that every definition computes by kernel reduction.
-/

/-- A row of the `subscribers` table restricted to the columns the engine
reads (`user_id`, `is_active`).  A table is a `List Subscriber` in the
`joined_at DESC` order used by `list_active_subscribers`. -/
structure Subscriber where
  user_id : Nat
  is_active : Bool
deriving Repr, DecidableEq

/-- A row of the `posts` table as returned by `Database.get_post`. -/
structure PostRec where
  id : Nat
  title : Option String
  content_type : String
  file_id : Option String
  text : Option String
  link_override : Option String
  button_text : Option String
  created_at : Int
deriving Repr, DecidableEq

/-- A row of the `post_stats` table. -/
structure PostStats where
  post_id : Nat
  delivered_count : Int
  last_delivered_at : Option Int
deriving Repr, DecidableEq

/-- A row of the `schedules` (one-off schedule) table. -/
structure ScheduleRow where
  id : Nat
  post_id : Nat
  next_run_at : Int
  repeat_interval : Option Int
  is_paused : Bool
  is_deleted : Bool
  last_run_at : Option Int
deriving Repr, DecidableEq

/-- A row of the `weekly_schedules` table. -/
structure WeeklyRow where
  id : Nat
  post_id : Nat
  hour : Nat
  minute : Nat
  days_mask : Nat
  is_paused : Bool
  last_run_ymd : Option Int
deriving Repr, DecidableEq

/-- The database state: the tables touched by the scheduling/broadcast
engine. -/
structure DB where
  settings : List (String × String)
  posts : List PostRec
  post_stats : List PostStats
  subscribers : List Subscriber
  schedules : List ScheduleRow
  weekly_schedules : List WeeklyRow
deriving Repr, DecidableEq

/-- Python truthiness of an `Optional[str]`: `None` and `""` are falsy. -/
def strTruthy : Option String → Bool
  | none => false
  | some s => decide (s ≠ "")

/-- Python `x or ""` for `x : Optional[str]`. -/
def orEmpty : Option String → String
  | none => ""
  | some s => s

/-- Python `x or None` for `x : Optional[str]` (an empty string collapses to
`None`), used for media captions. -/
def pyOrNone : Option String → Option String
  | none => none
  | some s => if s = "" then none else some s

/-- `Database.get_setting`: `SELECT value FROM settings WHERE key = ?`. -/
def get_setting (db : DB) (key : String) : Option String :=
  (db.settings.find? fun kv => decide (kv.fst = key)).map fun kv => kv.snd

/-- `Database.get_post`: `SELECT ... FROM posts WHERE id = ?`. -/
def get_post (db : DB) (post_id : Nat) : Option PostRec :=
  db.posts.find? fun p => decide (p.id = post_id)

/-- `Database.increment_post_delivery`: adds `delivered` to `delivered_count`
and stamps `last_delivered_at = now` on every `post_stats` row of the post. -/
def increment_post_delivery (db : DB) (post_id : Nat) (delivered : Int) (now : Int) : DB :=
  { db with post_stats := db.post_stats.map fun st =>
      if st.post_id = post_id then
        { st with delivered_count := st.delivered_count + delivered,
                  last_delivered_at := some now }
      else st }

/-- `Database.set_subscriber_active`: `UPDATE subscribers SET is_active = ?
WHERE user_id = ?` on the subscribers table. -/
def set_subscriber_active (subs : List Subscriber) (user_id : Nat) (active : Bool) :
    List Subscriber :=
  subs.map fun s => if s.user_id = user_id then { s with is_active := active } else s

/-- `Database.list_active_subscribers`: `WHERE is_active = 1 ORDER BY
joined_at DESC LIMIT ? OFFSET ?` (the list is kept in that order). -/
def list_active_subscribers (subs : List Subscriber) (limit offset : Nat) :
    List Subscriber :=
  ((subs.filter fun s => s.is_active).drop offset).take limit

/-- `Database.list_due_schedules`: non-deleted, non-paused one-off schedules
with `next_run_at <= now`. -/
def list_due_schedules (db : DB) (now_ts : Int) : List ScheduleRow :=
  db.schedules.filter fun s =>
    !s.is_deleted && !s.is_paused && decide (s.next_run_at ≤ now_ts)

/-- `Database.mark_schedule_after_run`: Python tests
`if repeat_interval and repeat_interval > 0` (so `None`, `0` and negative
intervals all take the terminating branch); the repeating branch advances
`next_run_at` by the interval from its previous value, the other branch sets
`is_deleted = 1`.  Both stamp `last_run_at = now`. -/
def mark_schedule_after_run (db : DB) (schedule_id : Nat) (repeat_interval : Option Int)
    (now : Int) : DB :=
  match repeat_interval with
  | some i =>
    if 0 < i then
      { db with schedules := db.schedules.map fun s =>
          if s.id = schedule_id then
            { s with last_run_at := some now, next_run_at := s.next_run_at + i }
          else s }
    else
      { db with schedules := db.schedules.map fun s =>
          if s.id = schedule_id then
            { s with last_run_at := some now, is_deleted := true }
          else s }
  | none =>
    { db with schedules := db.schedules.map fun s =>
        if s.id = schedule_id then
          { s with last_run_at := some now, is_deleted := true }
        else s }

/-- `Database.list_weekly_due`: non-paused weekly schedules matching the
hour/minute exactly, with the weekday bit set in `days_mask`, whose
`last_run_ymd` is NULL or differs from the key of today. -/
def list_weekly_due (db : DB) (wday hour minute : Nat) (today_ymd : Int) :
    List WeeklyRow :=
  let bit : Nat := 1 <<< wday
  db.weekly_schedules.filter fun w =>
    !w.is_paused && decide (w.hour = hour) && decide (w.minute = minute) &&
      decide (w.days_mask &&& bit ≠ 0) &&
      (match w.last_run_ymd with
       | none => true
       | some y => decide (y ≠ today_ymd))

/-- `Database.mark_weekly_ran`: `UPDATE weekly_schedules SET last_run_ymd = ?
WHERE id = ?`. -/
def mark_weekly_ran (db : DB) (schedule_id : Nat) (today_ymd : Int) : DB :=
  { db with weekly_schedules := db.weekly_schedules.map fun w =>
      if w.id = schedule_id then { w with last_run_ymd := some today_ymd } else w }

/-- Key of the process-wide default link setting. -/
def GLOBAL_LINK_KEY : String := "global_link"

/-- Key of the process-wide default button label setting. -/
def GLOBAL_BUTTON_TEXT_KEY : String := "global_button_text"

/-- `posts.DEFAULT_BUTTON_TEXT`. -/
def DEFAULT_BUTTON_TEXT : String := "🎰 Забрать бонус"

/-- `posts.resolve_post_url`: the override when truthy, else the
`global_link` setting. -/
def resolve_post_url (db : DB) (link_override : Option String) : Option String :=
  if strTruthy link_override then link_override
  else get_setting db GLOBAL_LINK_KEY

/-- `posts.resolve_button_text`: the override when truthy, else the
`global_button_text` setting, else `DEFAULT_BUTTON_TEXT`. -/
def resolve_button_text (db : DB) (button_text_override : Option String) : String :=
  if strTruthy button_text_override then orEmpty button_text_override
  else
    match get_setting db GLOBAL_BUTTON_TEXT_KEY with
    | none => DEFAULT_BUTTON_TEXT
    | some s => if s = "" then DEFAULT_BUTTON_TEXT else s

/-- Lines 42–53 of `posts.send_post_to_chat`: resolve the URL, resolve the
label only when a URL resolved, and attach a single (label, url) button iff
both are truthy; otherwise the markup carries no button. -/
def build_reply_markup (db : DB) (link_override button_text_override : Option String) :
    Option (String × String) :=
  let url := resolve_post_url db link_override
  let button_text : Option String :=
    if strTruthy url then some (resolve_button_text db button_text_override) else none
  if strTruthy url && strTruthy button_text then
    some (orEmpty button_text, orEmpty url)
  else
    none

/-- The single Telegram message a `send_post_to_chat` call emits, with its
inline-keyboard markup reduced to the optional (label, url) button. -/
inductive SentMessage where
  | message (text : String) (reply_markup : Option (String × String))
      (disable_web_page_preview : Bool)
  | photo (file_id : String) (caption : Option String)
      (reply_markup : Option (String × String))
  | animation (file_id : String) (caption : Option String)
      (reply_markup : Option (String × String))
  | video (file_id : String) (caption : Option String)
      (reply_markup : Option (String × String))
deriving Repr, DecidableEq

/-- The reply markup carried by a sent message. -/
def SentMessage.replyMarkup : SentMessage → Option (String × String)
  | .message _ rm _ => rm
  | .photo _ _ rm => rm
  | .animation _ _ rm => rm
  | .video _ _ rm => rm

/-- `posts.send_post_to_chat`: dispatch on `content_type`, requiring a truthy
`file_id` for the media kinds; anything else falls back to a plain text
message with the `(Контент недоступен)` suffix.  Every branch carries the
markup computed before the dispatch. -/
def send_post_to_chat (db : DB) (content_type : String) (file_id : Option String)
    (text : Option String) (link_override : Option String)
    (button_text_override : Option String) : SentMessage :=
  let reply_markup := build_reply_markup db link_override button_text_override
  if content_type = "text" then
    SentMessage.message (orEmpty text) reply_markup true
  else if content_type = "photo" ∧ strTruthy file_id = true then
    SentMessage.photo (orEmpty file_id) (pyOrNone text) reply_markup
  else if content_type = "animation" ∧ strTruthy file_id = true then
    SentMessage.animation (orEmpty file_id) (pyOrNone text) reply_markup
  else if content_type = "video" ∧ strTruthy file_id = true then
    SentMessage.video (orEmpty file_id) (pyOrNone text) reply_markup
  else
    SentMessage.message (orEmpty text ++ "\n\n(Контент недоступен)") reply_markup false

/-- Outcome of one Delivery Gateway invocation (`await send_post_to_chat`):
success, `TelegramForbiddenError`, or any other exception. -/
inductive SendOutcome where
  | delivered
  | forbidden
  | transientError (msg : String)
deriving Repr, DecidableEq

/-- Accumulator of the fan-out loop: the subscribers table plus the
`sent_count` / `blocked_count` counters. -/
structure PageAcc where
  subs : List Subscriber
  sent : Nat
  blocked : Nat
deriving Repr, DecidableEq

/-- The `for u in users` body of `send_post_to_all_subscribers` over one
fetched page: per user, success increments `sent`, `TelegramForbiddenError`
deactivates the subscriber and increments `blocked`, any other error is
logged and skipped.  Also returns the ordered list of user ids for which the
gateway was invoked (instrumentation; not in the source). -/
def processPage (outcome : Nat → SendOutcome) :
    List Subscriber → PageAcc → PageAcc × List Nat
  | [], acc => (acc, [])
  | u :: rest, acc =>
    let acc1 :=
      match outcome u.user_id with
      | .delivered => { acc with sent := acc.sent + 1 }
      | .forbidden =>
          { acc with subs := set_subscriber_active acc.subs u.user_id false,
                     blocked := acc.blocked + 1 }
      | .transientError _ => acc
    let r := processPage outcome rest acc1
    (r.1, u.user_id :: r.2)

/-- Result of a fan-out: the returned `{sent, blocked}` counts, the ordered
list of gateway invocations, and the final subscribers table. -/
structure FanoutResult where
  sent : Nat
  blocked : Nat
  invoked : List Nat
  subs : List Subscriber
deriving Repr, DecidableEq

/-- The `while True` paging loop of `send_post_to_all_subscribers`: fetch
`LIMIT 1000 OFFSET offset` of the *current* subscribers table, stop on an
empty page, else process the page and advance the offset by the batch size.
`fuel` bounds the number of iterations; the wrapper passes more fuel than
pages can exist, so the zero-fuel case is never reached. -/
def fanoutLoop (outcome : Nat → SendOutcome) : Nat → PageAcc → Nat → FanoutResult
  | 0, acc, _ =>
    { sent := acc.sent, blocked := acc.blocked, invoked := [], subs := acc.subs }
  | fuel + 1, acc, offset =>
    let users := list_active_subscribers acc.subs 1000 offset
    if users = [] then
      { sent := acc.sent, blocked := acc.blocked, invoked := [], subs := acc.subs }
    else
      let r := processPage outcome users acc
      let rest := fanoutLoop outcome fuel r.1 (offset + 1000)
      { sent := rest.sent, blocked := rest.blocked, invoked := r.2 ++ rest.invoked,
        subs := rest.subs }

/-- `posts.send_post_to_all_subscribers`: page through the active
subscribers in batches of 1000 starting at offset 0 and return
`{sent, blocked}` (plus the instrumented invocation log and final table). -/
def send_post_to_all_subscribers (outcome : Nat → SendOutcome)
    (subs : List Subscriber) : FanoutResult :=
  fanoutLoop outcome (subs.length + 1) { subs := subs, sent := 0, blocked := 0 } 0

/-- `scheduler._send_post_to_all_subscribers`: the same paging loop as
`posts.send_post_to_all_subscribers` (the source duplicates it, counting only
successes), followed by — iff `success_total` is non-zero — one aggregate
`increment_post_delivery` for the post.  Returns `success_total` and the new
database state. -/
def sched_send_post_to_all_subscribers (outcome : Nat → SendOutcome) (db : DB)
    (post_id : Nat) (now : Int) : Nat × DB :=
  let r := send_post_to_all_subscribers outcome db.subscribers
  let db1 := { db with subscribers := r.subs }
  if r.sent ≠ 0 then (r.sent, increment_post_delivery db1 post_id (r.sent : Int) now)
  else (r.sent, db1)

/-- The per-item body of `scheduler._run_due_schedules` over an already
computed due list: a missing post terminates the schedule (the source passes
`None` as the interval) without dispatching; otherwise fan out, then
reschedule with the own `repeat_interval` of the item.  The first component lists
the ids of the schedules for which the dispatcher was invoked. -/
def runDueItems (outcome : Nat → SendOutcome) (db : DB) :
    List ScheduleRow → Int → List Nat × DB
  | [], _ => ([], db)
  | item :: rest, now =>
    match get_post db item.post_id with
    | none =>
      runDueItems outcome (mark_schedule_after_run db item.id none now) rest now
    | some post =>
      let s := sched_send_post_to_all_subscribers outcome db post.id now
      let db2 := mark_schedule_after_run s.2 item.id item.repeat_interval now
      let r := runDueItems outcome db2 rest now
      (item.id :: r.1, r.2)

/-- `scheduler._run_due_schedules`: resolve the due list once, then process
each item. -/
def run_due_schedules (outcome : Nat → SendOutcome) (db : DB) (now_ts : Int) :
    List Nat × DB :=
  runDueItems outcome db (list_due_schedules db now_ts) now_ts

/-- The per-item body of `scheduler._run_weekly` over an already computed due
list: a missing post just marks the schedule as ran today without
dispatching; otherwise fan out, then mark.  The first component lists the
ids of the schedules for which the dispatcher was invoked. -/
def runWeeklyItems (outcome : Nat → SendOutcome) (db : DB) :
    List WeeklyRow → Int → Int → List Nat × DB
  | [], _, _ => ([], db)
  | item :: rest, today_ymd, now =>
    match get_post db item.post_id with
    | none =>
      runWeeklyItems outcome (mark_weekly_ran db item.id today_ymd) rest today_ymd now
    | some post =>
      let s := sched_send_post_to_all_subscribers outcome db post.id now
      let db2 := mark_weekly_ran s.2 item.id today_ymd
      let r := runWeeklyItems outcome db2 rest today_ymd now
      (item.id :: r.1, r.2)

/-- `scheduler._run_weekly`: resolve the weekly schedules due today once, then
process each item. -/
def run_weekly (outcome : Nat → SendOutcome) (db : DB) (wday hour minute : Nat)
    (today_ymd now : Int) : List Nat × DB :=
  runWeeklyItems outcome db (list_weekly_due db wday hour minute today_ymd) today_ymd now

/-- `n` consecutive tick iterations observing the same matching
weekday/hour/minute and the same calendar day: each runs `_run_weekly` on the
database the previous one produced.  Returns all fired schedule ids in
order. -/
def iterate_run_weekly (outcome : Nat → SendOutcome) (wday hour minute : Nat)
    (today_ymd now : Int) : Nat → DB → List Nat × DB
  | 0, db => ([], db)
  | n + 1, db =>
    let r := run_weekly outcome db wday hour minute today_ymd now
    let rest := iterate_run_weekly outcome wday hour minute today_ymd now n r.2
    (r.1 ++ rest.1, rest.2)

/-- Outcome of one iteration body of the scheduler loop (lines 90–97 of
`scheduler.py`): either it completes with a next state, or it raises with
the state as of the raise point. -/
inductive TickResult (σ : Type) where
  | ok (s : σ)
  | err (msg : String) (s : σ)

/-- The `try/except` of `start_scheduler`: a raising iteration is caught
(and logged), and the loop carries on from the state at the failure point.
Either way control falls through to the `await asyncio.sleep(5)`. -/
def scheduler_tick {σ : Type} (body : σ → TickResult σ) (s : σ) : σ :=
  match body s with
  | .ok s2 => s2
  | .err _ s2 => s2

/-- `n` iterations of the `while True` loop of `start_scheduler`; the second
component counts the completed iterations, each of which ended at the
sleep. -/
def scheduler_run {σ : Type} (body : σ → TickResult σ) : Nat → σ → σ × Nat
  | 0, s => (s, 0)
  | n + 1, s =>
    let r := scheduler_run body n (scheduler_tick body s)
    (r.1, r.2 + 1)

/-- State threaded through scheduler iterations: the database and the
`last_weekly_check_minute` local. -/
structure SchedState where
  db : DB
  lastWeeklyCheckMinute : Option Int
deriving Repr

/-- One error-free iteration body of `start_scheduler`: run the due one-off
schedules, then — only when the wall-clock minute changed — run the weekly
schedules once and record the minute. -/
def scheduler_iteration (outcome : Nat → SendOutcome) (now_ts : Int)
    (wday hour minute : Nat) (today_ymd : Int) (s : SchedState) : SchedState :=
  let db1 := (run_due_schedules outcome s.db now_ts).2
  let nowMinute := now_ts / 60
  if s.lastWeeklyCheckMinute ≠ some nowMinute then
    { db := (run_weekly outcome db1 wday hour minute today_ymd now_ts).2,
      lastWeeklyCheckMinute := some nowMinute }
  else
    { db := db1, lastWeeklyCheckMinute := s.lastWeeklyCheckMinute }

/-- Every row of the subscribers table carrying this user id is inactive. -/
def InactiveAll (subs : List Subscriber) (u : Nat) : Prop :=
  ∀ s ∈ subs, s.user_id = u → s.is_active = false

instance (subs : List Subscriber) (u : Nat) : Decidable (InactiveAll subs u) :=
  inferInstanceAs (Decidable (∀ s ∈ subs, s.user_id = u → s.is_active = false))

/-- Every weekly-schedule row carrying this schedule id has
`last_run_ymd = today_ymd`. -/
def MarkedWeekly (db : DB) (sid : Nat) (ymd : Int) : Prop :=
  ∀ w ∈ db.weekly_schedules, w.id = sid → w.last_run_ymd = some ymd

instance (db : DB) (sid : Nat) (ymd : Int) : Decidable (MarkedWeekly db sid ymd) :=
  inferInstanceAs (Decidable (∀ w ∈ db.weekly_schedules, w.id = sid → w.last_run_ymd = some ymd))

/-- Every one-off schedule row carrying this schedule id is soft-deleted. -/
def DeletedSchedule (db : DB) (sid : Nat) : Prop :=
  ∀ s ∈ db.schedules, s.id = sid → s.is_deleted = true

instance (db : DB) (sid : Nat) : Decidable (DeletedSchedule db sid) :=
  inferInstanceAs (Decidable (∀ s ∈ db.schedules, s.id = sid → s.is_deleted = true))

/-- Three active subscribers, as in the concrete dispatch example of the spec. -/
def exSubs3 : List Subscriber :=
  [{ user_id := 1, is_active := true }, { user_id := 2, is_active := true },
   { user_id := 3, is_active := true }]

/-- Delivery outcomes where exactly subscriber 2 reports permanent failure. -/
def exOutcome3 : Nat → SendOutcome :=
  fun u => if u = 2 then SendOutcome.forbidden else SendOutcome.delivered

/-- 1001 active subscribers with user ids 0..1000, in stored order. -/
def c3subs : List Subscriber :=
  (List.range 1001).map fun i => { user_id := i, is_active := true }

/-- Delivery outcomes where exactly subscriber 0 reports permanent failure. -/
def c3outcome : Nat → SendOutcome :=
  fun u => if u = 0 then SendOutcome.forbidden else SendOutcome.delivered

/-- The text body of the concrete post. -/
def exHello : String := "hello"

/-- A concrete text post with id 7. -/
def exPost : PostRec :=
  { id := 7, title := none, content_type := "text", file_id := none,
    text := some exHello, link_override := none, button_text := none, created_at := 0 }

/-- A concrete database: post 7 with a stats row, three active subscribers,
one repeating one-off schedule and one Monday-09:00 weekly schedule. -/
def exDB : DB :=
  { settings := [],
    posts := [exPost],
    post_stats := [{ post_id := 7, delivered_count := 0, last_delivered_at := none }],
    subscribers := exSubs3,
    schedules :=
      [{ id := 1, post_id := 7, next_run_at := 100, repeat_interval := some 60,
         is_paused := false, is_deleted := false, last_run_at := none }],
    weekly_schedules :=
      [{ id := 1, post_id := 7, hour := 9, minute := 0, days_mask := 1,
         is_paused := false, last_run_ymd := none }] }

/-- A content kind the dispatch does not know. -/
def exStickerKind : String := "sticker"

/-- A concrete error message used by the loop-resilience witness. -/
def exErrMsg : String := "boom"

/-- A database whose only one-off and weekly schedules reference post 99,
which does not exist. -/
def exDBDangling : DB :=
  { settings := [],
    posts := [],
    post_stats := [],
    subscribers := exSubs3,
    schedules :=
      [{ id := 2, post_id := 99, next_run_at := 100, repeat_interval := none,
         is_paused := false, is_deleted := false, last_run_at := none }],
    weekly_schedules :=
      [{ id := 3, post_id := 99, hour := 9, minute := 0, days_mask := 1,
         is_paused := false, last_run_ymd := none }] }

/-! ## Helper lemmas -/

theorem increment_post_delivery_row (db : DB) (pid : Nat) (d now : Int) (k : Nat)
    (st : PostStats) (hk : db.post_stats[k]? = some st) :
    (increment_post_delivery db pid d now).post_stats[k]? =
      some (if st.post_id = pid then
              { st with delivered_count := st.delivered_count + d,
                        last_delivered_at := some now }
            else st) := by
  simp [increment_post_delivery, List.getElem?_map, hk]

theorem getElem?_map_schedules (l : List ScheduleRow) (f : ScheduleRow → ScheduleRow)
    (k : Nat) (s : ScheduleRow) (hk : l[k]? = some s) :
    (l.map f)[k]? = some (f s) := by
  simp [List.getElem?_map, hk]

theorem mark_schedule_after_run_deleted (db : DB) (sid : Nat) (rep : Option Int)
    (now : Int) (hrep : rep = none ∨ rep = some 0) :
    DeletedSchedule (mark_schedule_after_run db sid rep now) sid := by
  intro s hs hid
  rcases hrep with h | h <;> subst h <;>
    simp only [mark_schedule_after_run, if_neg (by omega : ¬ (0:Int) < 0)] at hs <;>
  · obtain ⟨a, _, rfl⟩ := List.mem_map.mp hs
    by_cases ha : a.id = sid
    · simp [ha]
    · simp only [if_neg ha] at hid ⊢
      exact absurd hid ha

theorem list_due_schedules_not_deleted (db : DB) (now_ts : Int) (s : ScheduleRow)
    (hs : s ∈ list_due_schedules db now_ts) : s ∈ db.schedules ∧ s.is_deleted = false := by
  obtain ⟨hmem, hp⟩ := List.mem_filter.mp hs
  refine ⟨hmem, ?_⟩
  simp only [Bool.and_eq_true, Bool.not_eq_true'] at hp
  exact hp.1.1

/-! ## C4 -/

/-- C4: marking a one-off schedule after a run with a positive repeat
interval `I` stamps `lastRunAt = now` and advances `nextRunAt` from the
previous scheduled time `T` to exactly `T + I`, regardless of how late
(`now ≥ T`) the tick ran. -/
theorem c4_phase_preserving_reschedule (db : DB) (sid k : Nat) (s : ScheduleRow)
    (i now : Int) (hk : db.schedules[k]? = some s) (hid : s.id = sid)
    (hrep : s.repeat_interval = some i) (hpos : 0 < i) (hdue : s.next_run_at ≤ now) :
    (mark_schedule_after_run db sid (some i) now).schedules[k]? =
      some { s with last_run_at := some now, next_run_at := s.next_run_at + i } := by
  simp only [mark_schedule_after_run, if_pos hpos]
  rw [getElem?_map_schedules _ _ _ _ hk, if_pos hid]

/-- Witness for C4 at a concrete schedule: id 1, `nextRunAt = 100`,
interval 60, fired at `now = 250`, lands on `nextRunAt = 160`. -/
theorem c4_phase_preserving_reschedule_witness :
    (mark_schedule_after_run exDB 1 (some 60) 250).schedules[0]? =
      some { id := 1, post_id := 7, next_run_at := 160, repeat_interval := some 60,
             is_paused := false, is_deleted := false, last_run_at := some 250 } := by
  have h := c4_phase_preserving_reschedule exDB 1 0
    { id := 1, post_id := 7, next_run_at := 100, repeat_interval := some 60,
      is_paused := false, is_deleted := false, last_run_at := none }
    60 250 (by decide) (by decide) (by decide) (by decide) (by decide)
  exact h

/-! ## C5 -/

/-- C5: a one-off schedule finished with no repeat interval (`None` or `0`)
is terminated — every row with its id gets `is_deleted = true` — and the due
resolver never returns a schedule with that id afterwards, for any `now`. -/
theorem c5_oneoff_terminated_never_due (db : DB) (sid : Nat) (rep : Option Int)
    (now : Int) (hrep : rep = none ∨ rep = some 0) :
    DeletedSchedule (mark_schedule_after_run db sid rep now) sid ∧
    ∀ now2 : Int, ∀ s ∈ list_due_schedules (mark_schedule_after_run db sid rep now) now2,
      s.id ≠ sid := by
  have hdel := mark_schedule_after_run_deleted db sid rep now hrep
  refine ⟨hdel, ?_⟩
  intro now2 s hs hid
  obtain ⟨hmem, hnd⟩ := list_due_schedules_not_deleted _ _ _ hs
  have := hdel s hmem hid
  rw [this] at hnd
  exact absurd hnd (by simp)

/-- Witness for C5: terminating the schedule of `exDB` (id 1) removes it
from every subsequent due-list, here checked at `now2 = 10^9`. -/
theorem c5_oneoff_terminated_never_due_witness :
    DeletedSchedule (mark_schedule_after_run exDB 1 none 250) 1 ∧
    ∀ s ∈ list_due_schedules (mark_schedule_after_run exDB 1 none 250) 1000000000,
      s.id ≠ 1 := by
  have h := c5_oneoff_terminated_never_due exDB 1 none 250 (Or.inl rfl)
  exact ⟨h.1, h.2 1000000000⟩

/-! ## C2 -/

/-- C2: after a completed scheduler fan-out, iff `sent > 0` every stats row
of the post gets `deliveredCount` increased by exactly `sent` and
`lastDeliveredAt = now` in one aggregate update; with `sent = 0` the stats
table is untouched; rows of other posts are untouched; and a delivered
count never decreases. -/
theorem c2_aggregate_stats_update (outcome : Nat → SendOutcome) (db : DB)
    (pid : Nat) (now : Int) :
    ((sched_send_post_to_all_subscribers outcome db pid now).1 = 0 →
      (sched_send_post_to_all_subscribers outcome db pid now).2.post_stats =
        db.post_stats) ∧
    (∀ k : Nat, ∀ st : PostStats, db.post_stats[k]? = some st → st.post_id = pid →
      0 < (sched_send_post_to_all_subscribers outcome db pid now).1 →
      (sched_send_post_to_all_subscribers outcome db pid now).2.post_stats[k]? =
        some { st with
          delivered_count :=
            st.delivered_count +
              ((sched_send_post_to_all_subscribers outcome db pid now).1 : Int),
          last_delivered_at := some now }) ∧
    (∀ k : Nat, ∀ st : PostStats, db.post_stats[k]? = some st → st.post_id ≠ pid →
      (sched_send_post_to_all_subscribers outcome db pid now).2.post_stats[k]? =
        some st) ∧
    (∀ k : Nat, ∀ st st' : PostStats, db.post_stats[k]? = some st →
      (sched_send_post_to_all_subscribers outcome db pid now).2.post_stats[k]? =
        some st' →
      st.delivered_count ≤ st'.delivered_count) := by
  by_cases h0 : (send_post_to_all_subscribers outcome db.subscribers).sent = 0
  · have heq :
        sched_send_post_to_all_subscribers outcome db pid now =
          ((send_post_to_all_subscribers outcome db.subscribers).sent,
            { db with subscribers := (send_post_to_all_subscribers outcome db.subscribers).subs }) := by
      simp [sched_send_post_to_all_subscribers, h0]
    refine ⟨fun _ => by rw [heq], ?_, ?_, ?_⟩
    · intro k st _ _ hpos
      rw [heq] at hpos
      omega
    · intro k st hk _
      rw [heq]
      exact hk
    · intro k st st' hk hk'
      rw [heq] at hk'
      rw [hk] at hk'
      cases hk'
      exact le_refl _
  · have heq :
        sched_send_post_to_all_subscribers outcome db pid now =
          ((send_post_to_all_subscribers outcome db.subscribers).sent,
            increment_post_delivery
              { db with subscribers := (send_post_to_all_subscribers outcome db.subscribers).subs }
              pid ((send_post_to_all_subscribers outcome db.subscribers).sent : Int) now) := by
      simp [sched_send_post_to_all_subscribers, h0]
    refine ⟨fun hz => by rw [heq] at hz; exact absurd hz h0, ?_, ?_, ?_⟩
    · intro k st hk hpid _
      rw [heq]
      have := increment_post_delivery_row
        { db with subscribers := (send_post_to_all_subscribers outcome db.subscribers).subs }
        pid ((send_post_to_all_subscribers outcome db.subscribers).sent : Int) now k st hk
      rw [this, if_pos hpid]
    · intro k st hk hpid
      rw [heq]
      have := increment_post_delivery_row
        { db with subscribers := (send_post_to_all_subscribers outcome db.subscribers).subs }
        pid ((send_post_to_all_subscribers outcome db.subscribers).sent : Int) now k st hk
      rw [this, if_neg hpid]
    · intro k st st' hk hk'
      rw [heq] at hk'
      have := increment_post_delivery_row
        { db with subscribers := (send_post_to_all_subscribers outcome db.subscribers).subs }
        pid ((send_post_to_all_subscribers outcome db.subscribers).sent : Int) now k st hk
      rw [this] at hk'
      by_cases hpid : st.post_id = pid
      · rw [if_pos hpid] at hk'
        cases hk'
        have h0 : (0:Int) ≤ ((send_post_to_all_subscribers outcome db.subscribers).sent : Int) :=
          Int.natCast_nonneg _
        show st.delivered_count ≤
          st.delivered_count + ((send_post_to_all_subscribers outcome db.subscribers).sent : Int)
        omega
      · rw [if_neg hpid] at hk'
        cases hk'
        exact le_refl _

/-- Witness for C2: in `exDB` (three active subscribers, all deliveries
succeed) the fan-out of post 7 yields `sent = 3` and its stats row becomes
`delivered_count = 3`, `last_delivered_at = 555`. -/
theorem c2_aggregate_stats_update_witness :
    (sched_send_post_to_all_subscribers (fun _ => SendOutcome.delivered) exDB 7 555).2.post_stats[0]? =
      some { post_id := 7, delivered_count := 3, last_delivered_at := some 555 } := by
  have h := (c2_aggregate_stats_update (fun _ => SendOutcome.delivered) exDB 7 555).2.1
    0 { post_id := 7, delivered_count := 0, last_delivered_at := none }
    (by decide) (by decide) (by decide)
  rw [h]
  decide

/-! ## C9 -/

/-- C9: the tick loop survives any per-iteration failure.  For every
iteration body — including bodies that raise on every call — `n` loop steps
complete exactly `n` iterations, each falling through to the sleep; a raising
iteration is absorbed by the catch, the loop resuming from the state at the
failure point; and in particular the genuine scheduler iteration body
(`scheduler_iteration`) wrapped as an always-ok body runs forever. -/
theorem c9_loop_survives_errors :
    (∀ (σ : Type) (body : σ → TickResult σ) (s : σ) (n : Nat),
      (scheduler_run body n s).2 = n) ∧
    (∀ (σ : Type) (body : σ → TickResult σ) (s s2 : σ) (msg : String),
      body s = TickResult.err msg s2 → scheduler_tick body s = s2) ∧
    (∀ (outcome : Nat → SendOutcome) (now_ts : Int) (wday hour minute : Nat)
      (today_ymd : Int) (st : SchedState) (n : Nat),
      (scheduler_run
        (fun x => TickResult.ok (scheduler_iteration outcome now_ts wday hour minute today_ymd x))
        n st).2 = n) := by
  have hrun : ∀ (σ : Type) (body : σ → TickResult σ) (n : Nat) (s : σ),
      (scheduler_run body n s).2 = n := by
    intro σ body n
    induction n with
    | zero => intro s; rfl
    | succ m ih =>
      intro s
      simp only [scheduler_run, ih]
  refine ⟨fun σ body s n => hrun σ body n s, ?_, ?_⟩
  · intro σ body s s2 msg h
    simp only [scheduler_tick, h]
  · intro outcome now_ts wday hour minute today_ymd st n
    exact hrun _ _ n st

/-- Witness for C9 at a concrete always-raising body over `Nat` states:
the catch keeps the raise-point state and the loop still counts its
iterations. -/
theorem c9_loop_survives_errors_witness :
    scheduler_tick (fun n : Nat => TickResult.err exErrMsg (n + 1)) 0 = 1 ∧
    (scheduler_run (fun n : Nat => TickResult.err exErrMsg (n + 1)) 5 0).2 = 5 := by
  constructor
  · exact c9_loop_survives_errors.2.1 Nat (fun n : Nat => TickResult.err exErrMsg (n + 1))
      0 1 exErrMsg rfl
  · exact c9_loop_survives_errors.1 Nat (fun n : Nat => TickResult.err exErrMsg (n + 1)) 0 5

/-! ## C8 -/

theorem send_post_to_chat_markup (db : DB) (ct : String) (fid txt lo bto : Option String) :
    (send_post_to_chat db ct fid txt lo bto).replyMarkup = build_reply_markup db lo bto := by
  simp only [send_post_to_chat]
  split_ifs <;> rfl

theorem build_reply_markup_of_no_url (db : DB) (lo bto : Option String)
    (h : strTruthy (resolve_post_url db lo) = false) :
    build_reply_markup db lo bto = none := by
  simp [build_reply_markup, h]

theorem build_reply_markup_some_url (db : DB) (lo bto : Option String)
    (label url : String) (h : build_reply_markup db lo bto = some (label, url)) :
    resolve_post_url db lo = some url ∧ url ≠ "" := by
  rcases hru : resolve_post_url db lo with _ | u
  · rw [build_reply_markup_of_no_url db lo bto (by rw [hru]; rfl)] at h
    cases h
  · by_cases hu : u = ""
    · subst hu
      rw [build_reply_markup_of_no_url db lo bto (by rw [hru]; rfl)] at h
      cases h
    · simp only [build_reply_markup, hru, strTruthy] at h
      simp only [decide_eq_true_eq] at h
      simp only [if_pos hu] at h
      by_cases hbt : resolve_button_text db bto = ""
      · simp [hbt] at h
      · simp [hbt, orEmpty] at h
        obtain ⟨-, -, h3⟩ := h
        subst h3
        exact ⟨rfl, hu⟩

/-- C8: the action button URL is the link override when present (truthy),
otherwise the process-wide `global_link` setting; and whenever no truthy URL
resolves, the rendered payload carries no button at all — a button is never
attached without a (non-empty) URL. -/
theorem c8_button_url_resolution (db : DB) (lo bto : Option String) :
    (∀ s : String, lo = some s → s ≠ "" → resolve_post_url db lo = some s) ∧
    (strTruthy lo = false →
      resolve_post_url db lo = get_setting db GLOBAL_LINK_KEY) ∧
    (∀ ct : String, ∀ fid txt : Option String,
      strTruthy (resolve_post_url db lo) = false →
        (send_post_to_chat db ct fid txt lo bto).replyMarkup = none) ∧
    (∀ ct : String, ∀ fid txt : Option String, ∀ label url : String,
      (send_post_to_chat db ct fid txt lo bto).replyMarkup = some (label, url) →
        resolve_post_url db lo = some url ∧ url ≠ "") := by
  refine ⟨?_, ?_, ?_, ?_⟩
  · intro s hs hne
    subst hs
    simp [resolve_post_url, strTruthy, hne]
  · intro h
    simp [resolve_post_url, h]
  · intro ct fid txt hurl
    rw [send_post_to_chat_markup]
    exact build_reply_markup_of_no_url db lo bto hurl
  · intro ct fid txt label url h
    rw [send_post_to_chat_markup] at h
    exact build_reply_markup_some_url db lo bto label url h

/-- Witness for C8: in a database with no settings and a post with neither a
link override nor default link, the payload has no button. -/
theorem c8_button_url_resolution_witness :
    (send_post_to_chat exDBDangling exPost.content_type none none none none).replyMarkup =
      none :=
  (c8_button_url_resolution exDBDangling none none).2.2.1
    exPost.content_type none none (by decide)

/-! ## C10 -/

/-- C10: sending is total over content kinds — an unknown `content_type`, or
a media kind with a null `file_id`, still sends a plain text message: the
post's text (or empty) with the suffix `(Контент недоступен)`, carrying the
very same resolved button markup as any other payload. -/
theorem c10_fallback_content (db : DB) (ct : String) (fid txt lo bto : Option String) :
    (ct ∉ (["text", "photo", "animation", "video"] : List String) →
      send_post_to_chat db ct fid txt lo bto =
        SentMessage.message (orEmpty txt ++ "\n\n(Контент недоступен)")
          (build_reply_markup db lo bto) false) ∧
    ((ct = "photo" ∨ ct = "animation" ∨ ct = "video") → fid = none →
      send_post_to_chat db ct fid txt lo bto =
        SentMessage.message (orEmpty txt ++ "\n\n(Контент недоступен)")
          (build_reply_markup db lo bto) false) := by
  constructor
  · intro hct
    simp only [List.mem_cons, List.not_mem_nil, or_false, not_or] at hct
    obtain ⟨h1, h2, h3, h4⟩ := hct
    simp [send_post_to_chat, h1, h2, h3, h4]
  · intro hct hfid
    subst hfid
    have hnt : ct ≠ "text" := by
      rcases hct with h | h | h <;> subst h <;> decide
    simp [send_post_to_chat, hnt, strTruthy]

/-- Witness for C10 at an unknown content kind (a sticker) with empty text:
the payload is the plain fallback text message. -/
theorem c10_fallback_content_witness :
    send_post_to_chat exDBDangling exStickerKind none none none none =
      SentMessage.message (orEmpty none ++ "\n\n(Контент недоступен)")
        (build_reply_markup exDBDangling none none) false :=
  (c10_fallback_content exDBDangling exStickerKind none none none none).1 (by decide)

/-! ## C1 -/

theorem processPage_invoked (outcome : Nat → SendOutcome) (users : List Subscriber)
    (acc : PageAcc) :
    (processPage outcome users acc).2 = users.map fun u => u.user_id := by
  induction users generalizing acc with
  | nil => rfl
  | cons u rest ih => simp [processPage, ih]

theorem processPage_sent (outcome : Nat → SendOutcome) (users : List Subscriber)
    (acc : PageAcc) :
    (processPage outcome users acc).1.sent =
      acc.sent +
        users.countP (fun u => decide (outcome u.user_id = SendOutcome.delivered)) := by
  induction users generalizing acc with
  | nil => simp [processPage]
  | cons u rest ih =>
    simp only [processPage]
    cases h : outcome u.user_id <;>
      simp [List.countP_cons, h, ih] <;> omega

theorem processPage_blocked (outcome : Nat → SendOutcome) (users : List Subscriber)
    (acc : PageAcc) :
    (processPage outcome users acc).1.blocked =
      acc.blocked +
        users.countP (fun u => decide (outcome u.user_id = SendOutcome.forbidden)) := by
  induction users generalizing acc with
  | nil => simp [processPage]
  | cons u rest ih =>
    simp only [processPage]
    cases h : outcome u.user_id <;>
      simp [List.countP_cons, h, ih] <;> omega

theorem set_subscriber_active_inactive_self (subs : List Subscriber) (u : Nat) :
    InactiveAll (set_subscriber_active subs u false) u := by
  intro s hs hid
  simp only [set_subscriber_active, List.mem_map] at hs
  obtain ⟨a, _, rfl⟩ := hs
  by_cases h : a.user_id = u
  · simp [h]
  · simp only [if_neg h] at hid ⊢
    exact absurd hid h

theorem set_subscriber_active_inactive_pres (subs : List Subscriber) (u v : Nat)
    (h : InactiveAll subs u) : InactiveAll (set_subscriber_active subs v false) u := by
  intro s hs hid
  simp only [set_subscriber_active, List.mem_map] at hs
  obtain ⟨a, ha, rfl⟩ := hs
  by_cases hv : a.user_id = v
  · simp [hv]
  · simp only [if_neg hv] at hid ⊢
    exact h a ha hid

theorem processPage_inactive_pres (outcome : Nat → SendOutcome) (users : List Subscriber)
    (acc : PageAcc) (u : Nat) (h : InactiveAll acc.subs u) :
    InactiveAll (processPage outcome users acc).1.subs u := by
  induction users generalizing acc with
  | nil => exact h
  | cons v rest ih =>
    simp only [processPage]
    cases ho : outcome v.user_id <;> simp only [ho]
    · exact ih _ h
    · exact ih _ (set_subscriber_active_inactive_pres _ _ _ h)
    · exact ih _ h

theorem fanout_inactive_pres (outcome : Nat → SendOutcome) (fuel : Nat) (acc : PageAcc)
    (offset u : Nat) (h : InactiveAll acc.subs u) :
    InactiveAll (fanoutLoop outcome fuel acc offset).subs u := by
  induction fuel generalizing acc offset with
  | zero => exact h
  | succ m ih =>
    simp only [fanoutLoop]
    by_cases he : list_active_subscribers acc.subs 1000 offset = []
    · simp only [if_pos he]
      exact h
    · simp only [if_neg he]
      exact ih _ _ (processPage_inactive_pres _ _ _ _ h)

theorem inactive_not_in_page (subs : List Subscriber) (u limit offset : Nat)
    (h : InactiveAll subs u) :
    u ∉ (list_active_subscribers subs limit offset).map fun s => s.user_id := by
  intro hmem
  simp only [List.mem_map] at hmem
  obtain ⟨s, hs, hid⟩ := hmem
  simp only [list_active_subscribers] at hs
  have hs1 : s ∈ subs.filter fun x => x.is_active :=
    List.mem_of_mem_drop (List.mem_of_mem_take hs)
  have hact := List.of_mem_filter hs1
  have hmem2 := List.mem_of_mem_filter hs1
  rw [h s hmem2 hid] at hact
  exact absurd hact (by simp)

theorem fanout_not_invoked (outcome : Nat → SendOutcome) (fuel : Nat) (acc : PageAcc)
    (offset u : Nat) (h : InactiveAll acc.subs u) :
    u ∉ (fanoutLoop outcome fuel acc offset).invoked := by
  induction fuel generalizing acc offset with
  | zero => simp [fanoutLoop]
  | succ m ih =>
    simp only [fanoutLoop]
    by_cases he : list_active_subscribers acc.subs 1000 offset = []
    · simp [if_pos he]
    · simp only [if_neg he, List.mem_append]
      intro hmem
      rcases hmem with hpage | hrest
      · rw [processPage_invoked] at hpage
        exact inactive_not_in_page acc.subs u 1000 offset h hpage
      · exact ih _ _ (processPage_inactive_pres _ _ _ _ h) hrest

theorem processPage_forbidden_inactive (outcome : Nat → SendOutcome)
    (users : List Subscriber) (acc : PageAcc) :
    ∀ x ∈ (processPage outcome users acc).2, outcome x = SendOutcome.forbidden →
      InactiveAll (processPage outcome users acc).1.subs x := by
  induction users generalizing acc with
  | nil =>
    intro x hx
    simp [processPage] at hx
  | cons v rest ih =>
    intro x hx hfx
    simp only [processPage, List.mem_cons] at hx
    rcases hx with rfl | hx
    · simp only [processPage, hfx]
      exact processPage_inactive_pres _ _ _ _
        (set_subscriber_active_inactive_self acc.subs v.user_id)
    · exact ih _ x hx hfx

theorem fanout_forbidden_inactive (outcome : Nat → SendOutcome) (fuel : Nat)
    (acc : PageAcc) (offset : Nat) :
    ∀ x ∈ (fanoutLoop outcome fuel acc offset).invoked,
      outcome x = SendOutcome.forbidden →
        InactiveAll (fanoutLoop outcome fuel acc offset).subs x := by
  induction fuel generalizing acc offset with
  | zero =>
    intro x hx
    simp [fanoutLoop] at hx
  | succ m ih =>
    intro x hx hfx
    simp only [fanoutLoop] at hx ⊢
    by_cases he : list_active_subscribers acc.subs 1000 offset = []
    · simp [if_pos he] at hx
    · simp only [if_neg he, List.mem_append] at hx ⊢
      rcases hx with hpage | hrest
      · exact fanout_inactive_pres _ _ _ _ _
          (processPage_forbidden_inactive _ _ _ x hpage hfx)
      · exact ih _ _ x hrest hfx

theorem fanout_sent (outcome : Nat → SendOutcome) (fuel : Nat) (acc : PageAcc)
    (offset : Nat) :
    (fanoutLoop outcome fuel acc offset).sent =
      acc.sent +
        (fanoutLoop outcome fuel acc offset).invoked.countP
          (fun u => decide (outcome u = SendOutcome.delivered)) := by
  induction fuel generalizing acc offset with
  | zero => simp [fanoutLoop]
  | succ m ih =>
    simp only [fanoutLoop]
    by_cases he : list_active_subscribers acc.subs 1000 offset = []
    · simp [if_pos he]
    · simp only [if_neg he]
      rw [List.countP_append, processPage_invoked, List.countP_map, ih]
      rw [processPage_sent]
      have : ((list_active_subscribers acc.subs 1000 offset).countP
          ((fun u => decide (outcome u = SendOutcome.delivered)) ∘ fun u => u.user_id)) =
        ((list_active_subscribers acc.subs 1000 offset).countP
          (fun u => decide (outcome u.user_id = SendOutcome.delivered))) := rfl
      rw [this]
      omega

theorem fanout_blocked (outcome : Nat → SendOutcome) (fuel : Nat) (acc : PageAcc)
    (offset : Nat) :
    (fanoutLoop outcome fuel acc offset).blocked =
      acc.blocked +
        (fanoutLoop outcome fuel acc offset).invoked.countP
          (fun u => decide (outcome u = SendOutcome.forbidden)) := by
  induction fuel generalizing acc offset with
  | zero => simp [fanoutLoop]
  | succ m ih =>
    simp only [fanoutLoop]
    by_cases he : list_active_subscribers acc.subs 1000 offset = []
    · simp [if_pos he]
    · simp only [if_neg he]
      rw [List.countP_append, processPage_invoked, List.countP_map, ih]
      rw [processPage_blocked]
      have : ((list_active_subscribers acc.subs 1000 offset).countP
          ((fun u => decide (outcome u = SendOutcome.forbidden)) ∘ fun u => u.user_id)) =
        ((list_active_subscribers acc.subs 1000 offset).countP
          (fun u => decide (outcome u.user_id = SendOutcome.forbidden))) := rfl
      rw [this]
      omega

/-- C1: in a fan-out where every delivery either succeeds or reports
permanent failure, the returned `sent` equals the number of successful
deliveries and `blocked` the number of permanent failures among the gateway
invocations it made; every permanently-failed subscriber ends up with
`active = false` in the resulting table; and no such subscriber is invoked
by any subsequent fan-out over that table. -/
theorem c1_dispatcher_counts_and_deactivation (outcome : Nat → SendOutcome)
    (subs : List Subscriber)
    (hok : ∀ u : Nat, outcome u = SendOutcome.delivered ∨ outcome u = SendOutcome.forbidden) :
    (send_post_to_all_subscribers outcome subs).sent =
        (send_post_to_all_subscribers outcome subs).invoked.countP
          (fun u => decide (outcome u = SendOutcome.delivered)) ∧
    (send_post_to_all_subscribers outcome subs).blocked =
        (send_post_to_all_subscribers outcome subs).invoked.countP
          (fun u => decide (outcome u = SendOutcome.forbidden)) ∧
    (∀ u ∈ (send_post_to_all_subscribers outcome subs).invoked,
      outcome u = SendOutcome.forbidden →
        InactiveAll (send_post_to_all_subscribers outcome subs).subs u) ∧
    (∀ u ∈ (send_post_to_all_subscribers outcome subs).invoked,
      outcome u = SendOutcome.forbidden →
        ∀ outcome2 : Nat → SendOutcome,
          u ∉ (send_post_to_all_subscribers outcome2
                (send_post_to_all_subscribers outcome subs).subs).invoked) := by
  refine ⟨?_, ?_, ?_, ?_⟩
  · have h := fanout_sent outcome (subs.length + 1)
      { subs := subs, sent := 0, blocked := 0 } 0
    simpa [send_post_to_all_subscribers] using h
  · have h := fanout_blocked outcome (subs.length + 1)
      { subs := subs, sent := 0, blocked := 0 } 0
    simpa [send_post_to_all_subscribers] using h
  · intro u hu hfu
    exact fanout_forbidden_inactive outcome (subs.length + 1) _ 0 u hu hfu
  · intro u hu hfu outcome2
    exact fanout_not_invoked outcome2 _ _ 0 u
      (fanout_forbidden_inactive outcome (subs.length + 1) _ 0 u hu hfu)

/-- Witness for C1: three active subscribers with subscriber 2 permanently
failing yield `{sent := 2, blocked := 1}`, subscriber 2 is deactivated, and
a repeat fan-out over the resulting table does not invoke subscriber 2. -/
theorem c1_dispatcher_counts_and_deactivation_witness :
    (send_post_to_all_subscribers exOutcome3 exSubs3).sent = 2 ∧
    (send_post_to_all_subscribers exOutcome3 exSubs3).blocked = 1 ∧
    InactiveAll (send_post_to_all_subscribers exOutcome3 exSubs3).subs 2 ∧
    2 ∉ (send_post_to_all_subscribers exOutcome3
          (send_post_to_all_subscribers exOutcome3 exSubs3).subs).invoked := by
  have h := c1_dispatcher_counts_and_deactivation exOutcome3 exSubs3
    (by
      intro u
      by_cases hu : u = 2
      · subst hu
        right
        rfl
      · left
        simp [exOutcome3, hu])
  refine ⟨?_, ?_, ?_, ?_⟩
  · rw [h.1]
    decide
  · rw [h.2.1]
    decide
  · exact h.2.2.1 2 (by decide) (by decide)
  · exact h.2.2.2 2 (by decide) (by decide) exOutcome3

/-! ## C3 -/

set_option maxRecDepth 1000000 in
/-- C3 failing input: 1001 subscribers all active at the start of the
fan-out, where the delivery to user 0 (first in page 1) reports permanent
failure.  User 1000 is active at the start, yet the gateway is never invoked
for them: deactivating user 0 shrinks the active set under the OFFSET-based
pagination, so page 2 (`OFFSET 1000`) is empty and the last subscriber is
skipped.  Only 1000 invocations happen (`sent = 999`, `blocked = 1`) instead
of the 1001 the claim requires. -/
theorem c3_pagination_skips_subscriber :
    ({ user_id := 1000, is_active := true } : Subscriber) ∈ c3subs ∧
    (send_post_to_all_subscribers c3outcome c3subs).invoked.count 1000 = 0 ∧
    (send_post_to_all_subscribers c3outcome c3subs).invoked.length = 1000 ∧
    (send_post_to_all_subscribers c3outcome c3subs).sent = 999 ∧
    (send_post_to_all_subscribers c3outcome c3subs).blocked = 1 := by
  refine ⟨by decide, by decide, by decide, by decide, by decide⟩

/-! ## C6 -/

theorem mark_weekly_ran_ids (db : DB) (sid : Nat) (ymd : Int) :
    (mark_weekly_ran db sid ymd).weekly_schedules.map (fun w => w.id) =
      db.weekly_schedules.map (fun w => w.id) := by
  simp only [mark_weekly_ran, List.map_map]
  apply List.map_congr_left
  intro w _
  by_cases h : w.id = sid <;> simp [h]

theorem sched_send_weekly (outcome : Nat → SendOutcome) (db : DB) (pid : Nat) (now : Int) :
    (sched_send_post_to_all_subscribers outcome db pid now).2.weekly_schedules =
      db.weekly_schedules := by
  simp only [sched_send_post_to_all_subscribers, increment_post_delivery]
  split <;> rfl

theorem sched_send_posts (outcome : Nat → SendOutcome) (db : DB) (pid : Nat) (now : Int) :
    (sched_send_post_to_all_subscribers outcome db pid now).2.posts = db.posts := by
  simp only [sched_send_post_to_all_subscribers, increment_post_delivery]
  split <;> rfl

theorem sched_send_schedules (outcome : Nat → SendOutcome) (db : DB) (pid : Nat) (now : Int) :
    (sched_send_post_to_all_subscribers outcome db pid now).2.schedules = db.schedules := by
  simp only [sched_send_post_to_all_subscribers, increment_post_delivery]
  split <;> rfl

theorem get_post_congr (db db2 : DB) (pid : Nat) (h : db2.posts = db.posts) :
    get_post db2 pid = get_post db pid := by
  simp only [get_post, h]

theorem marked_weekly_self (db : DB) (sid : Nat) (ymd : Int) :
    MarkedWeekly (mark_weekly_ran db sid ymd) sid ymd := by
  intro w hw hid
  simp only [mark_weekly_ran, List.mem_map] at hw
  obtain ⟨a, _, rfl⟩ := hw
  by_cases h : a.id = sid
  · simp [h]
  · simp only [if_neg h] at hid ⊢
    exact absurd hid h

theorem marked_weekly_pres_mark (db : DB) (sid sid2 : Nat) (ymd : Int)
    (h : MarkedWeekly db sid ymd) :
    MarkedWeekly (mark_weekly_ran db sid2 ymd) sid ymd := by
  intro w hw hid
  simp only [mark_weekly_ran, List.mem_map] at hw
  obtain ⟨a, ha, rfl⟩ := hw
  by_cases h2 : a.id = sid2
  · simp [h2]
  · simp only [if_neg h2] at hid ⊢
    exact h a ha hid

theorem marked_weekly_pres_sched (outcome : Nat → SendOutcome) (db : DB)
    (pid : Nat) (now : Int) (sid : Nat) (ymd : Int) (h : MarkedWeekly db sid ymd) :
    MarkedWeekly (sched_send_post_to_all_subscribers outcome db pid now).2 sid ymd := by
  intro w hw hid
  rw [sched_send_weekly] at hw
  exact h w hw hid

theorem runWeeklyItems_marked_pres (outcome : Nat → SendOutcome) (db : DB)
    (items : List WeeklyRow) (ymd now : Int) (sid : Nat)
    (h : MarkedWeekly db sid ymd) :
    MarkedWeekly (runWeeklyItems outcome db items ymd now).2 sid ymd := by
  induction items generalizing db with
  | nil => exact h
  | cons item rest ih =>
    simp only [runWeeklyItems]
    cases hp : get_post db item.post_id
    · exact ih _ (marked_weekly_pres_mark _ _ _ _ h)
    · exact ih _ (marked_weekly_pres_mark _ _ _ _
        (marked_weekly_pres_sched _ _ _ _ _ _ h))

theorem runWeeklyItems_ids (outcome : Nat → SendOutcome) (db : DB)
    (items : List WeeklyRow) (ymd now : Int) :
    (runWeeklyItems outcome db items ymd now).2.weekly_schedules.map (fun w => w.id) =
      db.weekly_schedules.map (fun w => w.id) := by
  induction items generalizing db with
  | nil => rfl
  | cons item rest ih =>
    simp only [runWeeklyItems]
    cases hp : get_post db item.post_id
    · rw [ih, mark_weekly_ran_ids]
    · rw [ih, mark_weekly_ran_ids, sched_send_weekly]

theorem runWeeklyItems_posts (outcome : Nat → SendOutcome) (db : DB)
    (items : List WeeklyRow) (ymd now : Int) :
    (runWeeklyItems outcome db items ymd now).2.posts = db.posts := by
  induction items generalizing db with
  | nil => rfl
  | cons item rest ih =>
    simp only [runWeeklyItems]
    cases hp : get_post db item.post_id
    · rw [ih]
      rfl
    · rw [ih]
      show (mark_weekly_ran _ _ _).posts = _
      rw [show ∀ d : DB, ∀ i : Nat, ∀ y : Int, (mark_weekly_ran d i y).posts = d.posts
          from fun _ _ _ => rfl]
      rw [sched_send_posts]

theorem runWeeklyItems_marks (outcome : Nat → SendOutcome) (db : DB)
    (items : List WeeklyRow) (ymd now : Int) (sid : Nat)
    (hmem : sid ∈ items.map (fun w => w.id)) :
    MarkedWeekly (runWeeklyItems outcome db items ymd now).2 sid ymd := by
  induction items generalizing db with
  | nil => cases hmem
  | cons item rest ih =>
    simp only [List.map_cons, List.mem_cons] at hmem
    simp only [runWeeklyItems]
    rcases hmem with rfl | hmem
    · cases hp : get_post db item.post_id
      · exact runWeeklyItems_marked_pres _ _ _ _ _ _ (marked_weekly_self _ _ _)
      · exact runWeeklyItems_marked_pres _ _ _ _ _ _ (marked_weekly_self _ _ _)
    · cases hp : get_post db item.post_id
      · exact ih _ hmem
      · exact ih _ hmem

theorem runWeeklyItems_fired_sublist (outcome : Nat → SendOutcome) (db : DB)
    (items : List WeeklyRow) (ymd now : Int) :
    (runWeeklyItems outcome db items ymd now).1.Sublist (items.map (fun w => w.id)) := by
  induction items generalizing db with
  | nil => simp [runWeeklyItems]
  | cons item rest ih =>
    simp only [runWeeklyItems, List.map_cons]
    cases hp : get_post db item.post_id
    · exact List.Sublist.cons _ (ih _)
    · exact List.Sublist.cons₂ _ (ih _)

theorem list_weekly_due_not_marked (db : DB) (wday hour minute : Nat) (ymd : Int)
    (sid : Nat) (h : MarkedWeekly db sid ymd) :
    sid ∉ (list_weekly_due db wday hour minute ymd).map (fun w => w.id) := by
  intro hmem
  simp only [List.mem_map] at hmem
  obtain ⟨w, hw, hid⟩ := hmem
  obtain ⟨hmem2, hp⟩ := List.mem_filter.mp hw
  have hlast := h w hmem2 hid
  rw [hlast] at hp
  simp at hp

theorem list_weekly_due_ids_nodup (db : DB) (wday hour minute : Nat) (ymd : Int)
    (h : (db.weekly_schedules.map (fun w => w.id)).Nodup) :
    ((list_weekly_due db wday hour minute ymd).map (fun w => w.id)).Nodup :=
  ((List.filter_sublist _).map _).nodup h

theorem run_weekly_fired_count (outcome : Nat → SendOutcome) (db : DB)
    (wday hour minute : Nat) (ymd now : Int) (sid : Nat)
    (h : (db.weekly_schedules.map (fun w => w.id)).Nodup) :
    (run_weekly outcome db wday hour minute ymd now).1.count sid ≤ 1 := by
  have hsub := runWeeklyItems_fired_sublist outcome db
    (list_weekly_due db wday hour minute ymd) ymd now
  have h1 := hsub.count_le sid
  have h2 : ((list_weekly_due db wday hour minute ymd).map (fun w => w.id)).count sid ≤ 1 :=
    List.nodup_iff_count_le_one.mp (list_weekly_due_ids_nodup db wday hour minute ymd h) sid
  exact le_trans h1 h2

theorem run_weekly_fired_marked (outcome : Nat → SendOutcome) (db : DB)
    (wday hour minute : Nat) (ymd now : Int) (sid : Nat)
    (hmem : sid ∈ (run_weekly outcome db wday hour minute ymd now).1) :
    MarkedWeekly (run_weekly outcome db wday hour minute ymd now).2 sid ymd := by
  have hsub := runWeeklyItems_fired_sublist outcome db
    (list_weekly_due db wday hour minute ymd) ymd now
  exact runWeeklyItems_marks outcome db _ ymd now sid (hsub.subset hmem)

theorem run_weekly_marked_not_fired (outcome : Nat → SendOutcome) (db : DB)
    (wday hour minute : Nat) (ymd now : Int) (sid : Nat)
    (h : MarkedWeekly db sid ymd) :
    sid ∉ (run_weekly outcome db wday hour minute ymd now).1 := by
  intro hmem
  have hsub := runWeeklyItems_fired_sublist outcome db
    (list_weekly_due db wday hour minute ymd) ymd now
  exact list_weekly_due_not_marked db wday hour minute ymd sid h (hsub.subset hmem)

theorem run_weekly_ids (outcome : Nat → SendOutcome) (db : DB)
    (wday hour minute : Nat) (ymd now : Int) :
    (run_weekly outcome db wday hour minute ymd now).2.weekly_schedules.map (fun w => w.id) =
      db.weekly_schedules.map (fun w => w.id) :=
  runWeeklyItems_ids outcome db _ ymd now

theorem run_weekly_marked_pres (outcome : Nat → SendOutcome) (db : DB)
    (wday hour minute : Nat) (ymd now : Int) (sid : Nat)
    (h : MarkedWeekly db sid ymd) :
    MarkedWeekly (run_weekly outcome db wday hour minute ymd now).2 sid ymd :=
  runWeeklyItems_marked_pres outcome db _ ymd now sid h

theorem iterate_run_weekly_marked_zero (outcome : Nat → SendOutcome)
    (wday hour minute : Nat) (ymd now : Int) (n : Nat) (db : DB) (sid : Nat)
    (h : MarkedWeekly db sid ymd) :
    (iterate_run_weekly outcome wday hour minute ymd now n db).1.count sid = 0 := by
  induction n generalizing db with
  | zero => rfl
  | succ m ih =>
    simp only [iterate_run_weekly, List.count_append]
    rw [List.count_eq_zero.mpr (run_weekly_marked_not_fired outcome db wday hour minute ymd now sid h)]
    rw [ih _ (run_weekly_marked_pres outcome db wday hour minute ymd now sid h)]

/-- C6: across any number of tick iterations observing the same matching
weekday/hour/minute on the same calendar date, a weekly schedule fires at
most once: the first firing writes `lastRunYmd = todayKey` and the weekly
resolver excludes it for the rest of that date.  (Schedule ids are assumed
unique, as the primary key of the table guarantees.) -/
theorem c6_weekly_fires_at_most_once_per_day (outcome : Nat → SendOutcome)
    (wday hour minute : Nat) (ymd now : Int) (db : DB) (n sid : Nat)
    (hnd : (db.weekly_schedules.map (fun w => w.id)).Nodup) :
    (iterate_run_weekly outcome wday hour minute ymd now n db).1.count sid ≤ 1 := by
  induction n generalizing db with
  | zero => simp [iterate_run_weekly]
  | succ m ih =>
    simp only [iterate_run_weekly, List.count_append]
    by_cases hin : sid ∈ (run_weekly outcome db wday hour minute ymd now).1
    · have h1 := run_weekly_fired_count outcome db wday hour minute ymd now sid hnd
      have h2 := iterate_run_weekly_marked_zero outcome wday hour minute ymd now m _ sid
        (run_weekly_fired_marked outcome db wday hour minute ymd now sid hin)
      omega
    · have h1 := List.count_eq_zero.mpr hin
      have hnd2 : ((run_weekly outcome db wday hour minute ymd now).2.weekly_schedules.map
          (fun w => w.id)).Nodup := by
        rw [run_weekly_ids]
        exact hnd
      have h2 := ih _ hnd2
      omega

/-- Witness for C6: in `exDB` (one Monday-09:00 weekly schedule, id 1),
five consecutive ticks during the matching minute fire the schedule at most
once. -/
theorem c6_weekly_fires_at_most_once_per_day_witness :
    (iterate_run_weekly (fun _ => SendOutcome.delivered) 0 9 0 20260105 100 5 exDB).1.count 1 ≤ 1 :=
  c6_weekly_fires_at_most_once_per_day (fun _ => SendOutcome.delivered)
    0 9 0 20260105 100 exDB 5 1 (by decide)

/-! ## C7 -/

theorem mark_schedule_after_run_posts (db : DB) (sid : Nat) (rep : Option Int) (now : Int) :
    (mark_schedule_after_run db sid rep now).posts = db.posts := by
  rcases rep with _ | i
  · rfl
  · simp only [mark_schedule_after_run]
    split <;> rfl

theorem deleted_pres_mark (db : DB) (sid sid2 : Nat) (rep : Option Int) (now : Int)
    (h : DeletedSchedule db sid) :
    DeletedSchedule (mark_schedule_after_run db sid2 rep now) sid := by
  intro s hs hid
  rcases rep with _ | i
  · simp only [mark_schedule_after_run, List.mem_map] at hs
    obtain ⟨a, ha, rfl⟩ := hs
    by_cases h2 : a.id = sid2
    · simp [h2]
    · simp only [if_neg h2] at hid ⊢
      exact h a ha hid
  · simp only [mark_schedule_after_run] at hs
    by_cases hpos : (0:Int) < i
    · rw [if_pos hpos] at hs
      simp only [List.mem_map] at hs
      obtain ⟨a, ha, rfl⟩ := hs
      by_cases h2 : a.id = sid2
      · simp only [if_pos h2] at hid ⊢
        exact h a ha hid
      · simp only [if_neg h2] at hid ⊢
        exact h a ha hid
    · rw [if_neg hpos] at hs
      simp only [List.mem_map] at hs
      obtain ⟨a, ha, rfl⟩ := hs
      by_cases h2 : a.id = sid2
      · simp [h2]
      · simp only [if_neg h2] at hid ⊢
        exact h a ha hid

theorem deleted_pres_sched (outcome : Nat → SendOutcome) (db : DB) (pid : Nat)
    (now : Int) (sid : Nat) (h : DeletedSchedule db sid) :
    DeletedSchedule (sched_send_post_to_all_subscribers outcome db pid now).2 sid := by
  intro s hs hid
  rw [sched_send_schedules] at hs
  exact h s hs hid

theorem runDueItems_deleted_pres (outcome : Nat → SendOutcome) (db : DB)
    (items : List ScheduleRow) (now : Int) (sid : Nat) (h : DeletedSchedule db sid) :
    DeletedSchedule (runDueItems outcome db items now).2 sid := by
  induction items generalizing db with
  | nil => exact h
  | cons item rest ih =>
    simp only [runDueItems]
    cases hp : get_post db item.post_id
    · exact ih _ (deleted_pres_mark _ _ _ _ _ h)
    · exact ih _ (deleted_pres_mark _ _ _ _ _ (deleted_pres_sched _ _ _ _ _ h))

theorem runDueItems_posts (outcome : Nat → SendOutcome) (db : DB)
    (items : List ScheduleRow) (now : Int) :
    (runDueItems outcome db items now).2.posts = db.posts := by
  induction items generalizing db with
  | nil => rfl
  | cons item rest ih =>
    simp only [runDueItems]
    cases hp : get_post db item.post_id
    · rw [ih, mark_schedule_after_run_posts]
    · rw [ih, mark_schedule_after_run_posts, sched_send_posts]

theorem runDueItems_fired_sublist (outcome : Nat → SendOutcome) (db : DB)
    (items : List ScheduleRow) (now : Int) :
    (runDueItems outcome db items now).1.Sublist (items.map (fun s => s.id)) := by
  induction items generalizing db with
  | nil => simp [runDueItems]
  | cons item rest ih =>
    simp only [runDueItems, List.map_cons]
    cases hp : get_post db item.post_id
    · exact List.Sublist.cons _ (ih _)
    · exact List.Sublist.cons₂ _ (ih _)

theorem mark_weekly_ran_posts (db : DB) (sid : Nat) (ymd : Int) :
    (mark_weekly_ran db sid ymd).posts = db.posts := rfl

theorem runDueItems_missing_not_fired (outcome : Nat → SendOutcome) (db : DB)
    (items : List ScheduleRow) (now : Int) (item : ScheduleRow)
    (hnd : (items.map (fun s => s.id)).Nodup) (hmem : item ∈ items)
    (hpost : get_post db item.post_id = none) :
    item.id ∉ (runDueItems outcome db items now).1 := by
  induction items generalizing db with
  | nil => cases hmem
  | cons hd rest ih =>
    rw [List.map_cons] at hnd
    obtain ⟨hhd, hnd2⟩ := List.nodup_cons.mp hnd
    rcases List.mem_cons.mp hmem with rfl | hmem2
    · simp only [runDueItems, hpost]
      intro hf
      have hsub := runDueItems_fired_sublist outcome
        (mark_schedule_after_run db item.id none now) rest now
      exact hhd (hsub.subset hf)
    · have hid_ne : hd.id ≠ item.id := by
        intro he
        rw [he] at hhd
        exact hhd (List.mem_map_of_mem _ hmem2)
      simp only [runDueItems]
      cases hp : get_post db hd.post_id with
      | none =>
        apply ih _ hnd2 hmem2
        exact (get_post_congr db _ item.post_id
          (mark_schedule_after_run_posts db hd.id none now)).trans hpost
      | some post =>
        intro hf
        rcases List.mem_cons.mp hf with he | hf2
        · exact hid_ne he.symm
        · revert hf2
          apply ih _ hnd2 hmem2
          refine (get_post_congr db _ item.post_id ?_).trans hpost
          rw [mark_schedule_after_run_posts, sched_send_posts]

theorem runDueItems_missing_deleted (outcome : Nat → SendOutcome) (db : DB)
    (items : List ScheduleRow) (now : Int) (item : ScheduleRow)
    (hmem : item ∈ items) (hpost : get_post db item.post_id = none) :
    DeletedSchedule (runDueItems outcome db items now).2 item.id := by
  induction items generalizing db with
  | nil => cases hmem
  | cons hd rest ih =>
    rcases List.mem_cons.mp hmem with rfl | hmem2
    · simp only [runDueItems, hpost]
      exact runDueItems_deleted_pres _ _ _ _ _
        (mark_schedule_after_run_deleted db item.id none now (Or.inl rfl))
    · simp only [runDueItems]
      cases hp : get_post db hd.post_id with
      | none =>
        apply ih _ hmem2
        exact (get_post_congr db _ item.post_id
          (mark_schedule_after_run_posts db hd.id none now)).trans hpost
      | some post =>
        apply ih _ hmem2
        refine (get_post_congr db _ item.post_id ?_).trans hpost
        rw [mark_schedule_after_run_posts, sched_send_posts]

theorem runWeeklyItems_missing_not_fired (outcome : Nat → SendOutcome) (db : DB)
    (items : List WeeklyRow) (ymd now : Int) (item : WeeklyRow)
    (hnd : (items.map (fun w => w.id)).Nodup) (hmem : item ∈ items)
    (hpost : get_post db item.post_id = none) :
    item.id ∉ (runWeeklyItems outcome db items ymd now).1 := by
  induction items generalizing db with
  | nil => cases hmem
  | cons hd rest ih =>
    rw [List.map_cons] at hnd
    obtain ⟨hhd, hnd2⟩ := List.nodup_cons.mp hnd
    rcases List.mem_cons.mp hmem with rfl | hmem2
    · simp only [runWeeklyItems, hpost]
      intro hf
      have hsub := runWeeklyItems_fired_sublist outcome
        (mark_weekly_ran db item.id ymd) rest ymd now
      exact hhd (hsub.subset hf)
    · have hid_ne : hd.id ≠ item.id := by
        intro he
        rw [he] at hhd
        exact hhd (List.mem_map_of_mem _ hmem2)
      simp only [runWeeklyItems]
      cases hp : get_post db hd.post_id with
      | none =>
        apply ih _ hnd2 hmem2
        exact (get_post_congr db _ item.post_id
          (mark_weekly_ran_posts db hd.id ymd)).trans hpost
      | some post =>
        intro hf
        rcases List.mem_cons.mp hf with he | hf2
        · exact hid_ne he.symm
        · revert hf2
          apply ih _ hnd2 hmem2
          refine (get_post_congr db _ item.post_id ?_).trans hpost
          rw [mark_weekly_ran_posts, sched_send_posts]

/-- C7: when the post of a due schedule has been deleted, the dispatcher is not
invoked for it and the schedule state still advances — the one-off schedule
is terminated (soft-deleted) and the weekly schedule gets `lastRunYmd` set
to the key of today.  (Schedule ids are assumed unique, as the primary key
guarantees.) -/
theorem c7_missing_post_skips_dispatch (outcome : Nat → SendOutcome) (db : DB)
    (now : Int) (wday hour minute : Nat) (ymd : Int) :
    (∀ item ∈ list_due_schedules db now,
      (db.schedules.map (fun s => s.id)).Nodup →
      get_post db item.post_id = none →
        item.id ∉ (run_due_schedules outcome db now).1 ∧
        DeletedSchedule (run_due_schedules outcome db now).2 item.id) ∧
    (∀ item ∈ list_weekly_due db wday hour minute ymd,
      (db.weekly_schedules.map (fun w => w.id)).Nodup →
      get_post db item.post_id = none →
        item.id ∉ (run_weekly outcome db wday hour minute ymd now).1 ∧
        MarkedWeekly (run_weekly outcome db wday hour minute ymd now).2 item.id ymd) := by
  constructor
  · intro item hmem hnd hpost
    have hnd2 : ((list_due_schedules db now).map (fun s => s.id)).Nodup :=
      ((List.filter_sublist _).map _).nodup hnd
    exact ⟨runDueItems_missing_not_fired outcome db _ now item hnd2 hmem hpost,
      runDueItems_missing_deleted outcome db _ now item hmem hpost⟩
  · intro item hmem hnd hpost
    have hnd2 : ((list_weekly_due db wday hour minute ymd).map (fun w => w.id)).Nodup :=
      list_weekly_due_ids_nodup db wday hour minute ymd hnd
    exact ⟨runWeeklyItems_missing_not_fired outcome db _ ymd now item hnd2 hmem hpost,
      runWeeklyItems_marks outcome db _ ymd now item.id (List.mem_map_of_mem _ hmem)⟩

/-- Witness for C7: in `exDBDangling` both the due one-off schedule (id 2)
and the weekly schedule due today (id 3) reference the deleted post 99; neither
fires, the one-off is terminated and the weekly is marked ran. -/
theorem c7_missing_post_skips_dispatch_witness :
    (2 ∉ (run_due_schedules (fun _ => SendOutcome.delivered) exDBDangling 500).1 ∧
      DeletedSchedule (run_due_schedules (fun _ => SendOutcome.delivered) exDBDangling 500).2 2) ∧
    (3 ∉ (run_weekly (fun _ => SendOutcome.delivered) exDBDangling 0 9 0 20260105 500).1 ∧
      MarkedWeekly (run_weekly (fun _ => SendOutcome.delivered) exDBDangling 0 9 0 20260105 500).2
        3 20260105) := by
  have h := c7_missing_post_skips_dispatch (fun _ => SendOutcome.delivered)
    exDBDangling 500 0 9 0 20260105
  constructor
  · exact h.1
      { id := 2, post_id := 99, next_run_at := 100, repeat_interval := none,
        is_paused := false, is_deleted := false, last_run_at := none }
      (by decide) (by decide) (by decide)
  · exact h.2
      { id := 3, post_id := 99, hour := 9, minute := 0, days_mask := 1,
        is_paused := false, last_run_ymd := none }
      (by decide) (by decide) (by decide)
